import Mathlib

/-
Verification of the Samsa prediction-market engine.

Shallow embedding of:
  - src/js/core/lmsr-engine.js            (LMSRMarket, LMSR settlement maths)
  - src/unnamed/part_002                  (flat-file API routes: create
    prediction, resolve market, recomputeMarketStats)
  - src/js/features/markets/markets-view.js (risk controls)
  - src/lib/metrics.js                    (accuracy-weighted 24h volume)

JavaScript numbers are modelled as exact rationals (ℚ) except in the
probability model, where Math.exp forces the reals (ℝ).  `toFixed(2)`
followed by `Number(...)` is modelled as rounding to two decimal places.
-/

namespace Samsa

/-! ### LMSR settlement calculations (src/js/core/lmsr-engine.js, `LMSR`) -/

namespace LMSR

/-- Default platform fee (1%), `LMSR.PLATFORM_FEE` in the source.  The source
uses it as the default value of each `fee` parameter; here the fee is always
passed explicitly. -/
def PLATFORM_FEE : ℚ := 1 / 100

/-- The probability normalisation `probability > 1 ? probability / 100 :
probability` that every settlement function applies. -/
def normProb (probability : ℚ) : ℚ :=
  if 1 < probability then probability / 100 else probability

/-- `LMSR.calcWinProfit`: S × (1-p) × (1-f). -/
def calcWinProfit (stake probability fee : ℚ) : ℚ :=
  stake * (1 - normProb probability) * (1 - fee)

/-- `LMSR.calcWinReturn`: stake + profit. -/
def calcWinReturn (stake probability fee : ℚ) : ℚ :=
  stake + calcWinProfit stake probability fee

/-- `LMSR.calcLossAmount`: S × (1-p). -/
def calcLossAmount (stake probability : ℚ) : ℚ :=
  stake * (1 - normProb probability)

/-- `LMSR.calcLoseReturn`: S × p, the rebate a loser receives. -/
def calcLoseReturn (stake probability : ℚ) : ℚ :=
  stake * normProb probability

/-- `LMSR.calcPlatformRevenue`: S × (1-p) × f. -/
def calcPlatformRevenue (stake probability fee : ℚ) : ℚ :=
  stake * (1 - normProb probability) * fee

/-- Result record of `LMSR.settleTrade`.  The source returns an object with a
`refund` field only on the lose branch; that field is an `Option` here. -/
structure SettlementResult where
  outcome : String
  userNet : ℚ
  refund : Option ℚ
  totalReturn : ℚ
  platformRevenue : ℚ
deriving DecidableEq

/-- `LMSR.settleTrade`: full settlement calculation. -/
def settleTrade (stake probability : ℚ) (didWin : Bool) (fee : ℚ) :
    SettlementResult :=
  let p := normProb probability
  let profit := stake * (1 - p) * (1 - fee)
  let platformRevenue := stake * (1 - p) * fee
  let loss := stake * (1 - p)
  let refund := stake * p
  if didWin then
    { outcome := "WIN", userNet := profit, refund := none,
      totalReturn := stake + profit, platformRevenue := platformRevenue }
  else
    { outcome := "LOSE", userNet := -loss, refund := some refund,
      totalReturn := refund, platformRevenue := 0 }

end LMSR

/-! ### LMSRMarket probability model (src/js/core/lmsr-engine.js)

The accumulators are real numbers and `Math.exp` is modelled by `Real.exp`.
The mutating JS methods become state-passing functions. -/

structure LMSRMarket where
  qYes : ℝ
  qNo : ℝ
  b : ℝ

namespace LMSRMarket

/-- `getProbability()`: softmax of the accumulators, unclamped. -/
noncomputable def getProbability (m : LMSRMarket) : ℝ :=
  let eYes := Real.exp (m.qYes / m.b)
  let eNo := Real.exp (m.qNo / m.b)
  eYes / (eYes + eNo)

/-- `invest(side, stake)`: risk-weighted accumulator update.  Returns the
mutated market together with the method's return value, which is the new
probability clamped to [0.05, 0.95]. -/
noncomputable def invest (m : LMSRMarket) (side : String) (stake : ℝ) :
    LMSRMarket × ℝ :=
  let p := getProbability m
  let deltaQ := stake * (1 - p)
  let m' :=
    if side = "YES" then { m with qYes := m.qYes + deltaQ }
    else { m with qNo := m.qNo + deltaQ }
  let newP := getProbability m'
  (m', max 0.05 (min 0.95 newP))

/-- The record returned by `getState()`. -/
structure State where
  qYes : ℝ
  qNo : ℝ
  b : ℝ
  probability : ℝ

/-- `getState()`: persists the raw accumulators and the raw (unclamped)
probability. -/
noncomputable def getState (m : LMSRMarket) : State :=
  { qYes := m.qYes, qNo := m.qNo, b := m.b, probability := getProbability m }

end LMSRMarket

/-! ### Flat-file API routes (src/unnamed/part_002, Express server)

Records mirror the JSON documents; mutation of objects found inside an array
becomes replacement of the first matching element.  `new Date().toISOString()`
timestamps become a `now : ℚ` parameter (epoch milliseconds). -/

structure Outcome where
  id : String
  total_stake : ℚ
  probability : ℚ
deriving DecidableEq

structure Market where
  id : String
  status : String
  outcomes : List Outcome
  total_volume : ℚ
  winning_outcome_id : Option String
  resolution_date : Option ℚ
deriving DecidableEq

structure Prediction where
  id : String
  market_id : String
  outcome_id : String
  stake_amount : ℚ
  odds_at_prediction : ℚ
  potential_return : ℚ
  status : String
  actual_return : ℚ
  user_id : Option String
  created_at : ℚ
deriving DecidableEq

/-- Sum of `total_stake` over a market's outcomes, the `reduce` inside
`recomputeMarketStats`. -/
def marketTotalStake (market : Market) : ℚ :=
  (market.outcomes.map (fun o => o.total_stake)).sum

/-- `recomputeMarketStats(market)`: sets `total_volume` to the stake sum and,
when it is positive, recomputes each outcome's probability as
`Math.round(total_stake / totalStake * 100)`. -/
def recomputeMarketStats (market : Market) : Market :=
  let totalStake := marketTotalStake market
  let outcomes :=
    if 0 < totalStake then
      market.outcomes.map (fun o =>
        { o with probability := ((round (o.total_stake / totalStake * 100) : ℤ) : ℚ) })
    else market.outcomes
  { market with total_volume := totalStake, outcomes := outcomes }

/-- `Number(x.toFixed(2))`: rounding to two decimal places. -/
def round2 (x : ℚ) : ℚ := ((round (x * 100) : ℤ) : ℚ) / 100

/-- In-place mutation of the first outcome `find` returns: add `s` to its
`total_stake`. -/
def updateFirstOutcome : List Outcome → String → ℚ → List Outcome
  | [], _, _ => []
  | o :: rest, oid, s =>
    if o.id == oid then { o with total_stake := o.total_stake + s } :: rest
    else o :: updateFirstOutcome rest oid s

/-- In-place mutation of the first market `find` returns: replace it. -/
def updateFirstMarket : List Market → String → Market → List Market
  | [], _, _ => []
  | m :: rest, mid, m' =>
    if m.id == mid then m' :: rest
    else m :: updateFirstMarket rest mid m'

/-- Successful result of `POST /api/predictions`: the two rewritten files and
the 201 response body. -/
structure TradeResult where
  markets : List Market
  predictions : List Prediction
  created : Prediction
deriving DecidableEq

/-- `POST /api/predictions` (flat-file handler).  `stake_amount` and
`odds_at_prediction` are `Option ℚ`: `none` models a request-body field that
is not a number, which is the only validation `typeof ... !== 'number'`
performs.  The string ids model JS truthiness: an absent id is `""`. -/
def createPrediction (markets : List Market) (predictions : List Prediction)
    (market_id outcome_id : String) (stake_amount odds_at_prediction : Option ℚ)
    (user_id : Option String) (newId : String) (now : ℚ) :
    Except String TradeResult :=
  match stake_amount, odds_at_prediction with
  | some s, some odds =>
    if market_id = "" ∨ outcome_id = "" then
      Except.error "Invalid prediction payload"
    else
      match markets.find? (fun m => m.id == market_id) with
      | none => Except.error "Market not found"
      | some market =>
        if market.status ≠ "active" then Except.error "Market is not active"
        else
          match market.outcomes.find? (fun o => o.id == outcome_id) with
          | none => Except.error "Outcome not found"
          | some _ =>
            let potential_return := round2 (s * (100 / max odds 1))
            let prediction : Prediction :=
              { id := newId, market_id := market_id, outcome_id := outcome_id,
                stake_amount := s, odds_at_prediction := odds,
                potential_return := potential_return, status := "active",
                actual_return := 0, user_id := user_id, created_at := now }
            let market' := recomputeMarketStats
              { market with outcomes := updateFirstOutcome market.outcomes outcome_id s }
            Except.ok
              { markets := updateFirstMarket markets market_id market',
                predictions := predictions ++ [prediction],
                created := prediction }
  | _, _ => Except.error "Invalid prediction payload"

/-- The per-prediction update inside `POST /api/markets/:id/resolve`. -/
def settleOne (marketId winId : String) (p : Prediction) : Prediction :=
  if p.market_id ≠ marketId then p
  else
    { p with
      status := if p.outcome_id = winId then "won" else "lost",
      actual_return := if p.outcome_id = winId then p.potential_return else 0 }

/-- Successful result of `POST /api/markets/:id/resolve`: the two rewritten
files. -/
structure ResolveResult where
  markets : List Market
  predictions : List Prediction
deriving DecidableEq

/-- `POST /api/markets/:id/resolve` (flat-file handler).  Note: the handler
never inspects `market.status`; it maps over every prediction of the market
whatever its current status. -/
def resolveMarket (markets : List Market) (predictions : List Prediction)
    (marketId winning_outcome_id : String) (now : ℚ) :
    Except String ResolveResult :=
  match markets.find? (fun m => m.id == marketId) with
  | none => Except.error "Market not found"
  | some market =>
    match market.outcomes.find? (fun o => o.id == winning_outcome_id) with
    | none => Except.error "Invalid winning_outcome_id"
    | some _ =>
      let market' :=
        { market with
          status := "resolved",
          winning_outcome_id := some winning_outcome_id,
          resolution_date := some now }
      Except.ok
        { markets := updateFirstMarket markets marketId market',
          predictions := predictions.map (settleOne market.id winning_outcome_id) }

/-! ### Risk controls (src/js/features/markets/markets-view.js)

The `RISK_CONTROLS` constants, the stored per-user risk state, and
`validateTradeRisk`.  The string messages pushed into `warnings` / `blocked`
are modelled by tags, one per distinct `push` site.  `Date.now()` and the
day/week reset watermarks become explicit parameters. -/

def maxPositionSizePercent : ℚ := 10
def warningPositionSizePercent : ℚ := 5
def lossCooldownDuration : ℚ := 30000
def rapidTradeWindow : ℚ := 60000
def maxTradesInWindow : Nat := 3

/-- The state `loadRiskControlState` returns.  `dailyLimit = none` models the
falsy (`null`, absent or `0`) stored value, since loading maps `0` to
`null`; a numeric limit is `some l`, and the JS truthiness test on it is
`l ≠ 0`. -/
structure RiskState where
  dailyLimit : Option ℚ
  weeklyLimit : Option ℚ
  dailySpent : ℚ
  weeklySpent : ℚ
  lastDailyReset : String
  lastWeeklyReset : String
  observeOnlyMode : Bool
  tradingPaused : Bool
  recentTrades : List ℚ
  lastLossTime : Option ℚ
deriving DecidableEq

/-- Tags for the five `blocked.push` sites of `validateTradeRisk`, in source
order. -/
inductive BlockReason
  | tradingPaused
  | observeOnly
  | positionSize
  | dailyLimit
  | weeklyLimit
deriving DecidableEq

/-- Tags for the three `warnings.push` sites of `validateTradeRisk`, in source
order. -/
inductive WarnReason
  | lossCooldown
  | positionSize
  | rapidTrades
deriving DecidableEq

/-- Result record of `validateTradeRisk`. -/
structure RiskResult where
  allowed : Bool
  warnings : List WarnReason
  blocked : List BlockReason
  capitalAtRisk : ℚ
  dailyRemaining : Option ℚ
  weeklyRemaining : Option ℚ
deriving DecidableEq

/-- `checkAndResetLimits()`: zero the spent counters whose reset watermark is
stale.  `today` and `weekStart` are the current `Date` strings. -/
def checkAndResetLimits (state : RiskState) (today weekStart : String) :
    RiskState :=
  let state :=
    if state.lastDailyReset ≠ today then
      { state with dailySpent := 0, lastDailyReset := today }
    else state
  if state.lastWeeklyReset ≠ weekStart then
    { state with weeklySpent := 0, lastWeeklyReset := weekStart }
  else state

/-- `calculateCapitalAtRisk(amount)`: amount as a percentage of balance, 100
when the balance is not positive. -/
def calculateCapitalAtRisk (amount balance : ℚ) : ℚ :=
  if balance ≤ 0 then 100 else amount / balance * 100

/-- JS truthiness guard `state.dailyLimit && (spent + amount) > state.dailyLimit`
(and its weekly counterpart). -/
def capExceeded (cap : Option ℚ) (spent amount : ℚ) : Bool :=
  match cap with
  | some l => decide (l ≠ 0 ∧ l < spent + amount)
  | none => false

/-- `dailyRemaining` / `weeklyRemaining`: `max 0 (limit - spent)` for a truthy
cap, `null` otherwise. -/
def capRemaining (cap : Option ℚ) (spent : ℚ) : Option ℚ :=
  match cap with
  | some l => if l ≠ 0 then some (max 0 (l - spent)) else none
  | none => none

/-- `validateTradeRisk(amount)`: classify a prospective trade.  The stored
state is first passed through `checkAndResetLimits`; `balance` is what
`getBalance()` returns and `now` is `Date.now()`. -/
def validateTradeRisk (stored : RiskState) (today weekStart : String)
    (balance now amount : ℚ) : RiskResult :=
  let state := checkAndResetLimits stored today weekStart
  let capitalAtRisk := calculateCapitalAtRisk amount balance
  let warnings : List WarnReason :=
    (match state.lastLossTime with
     | some t =>
       if now - t < lossCooldownDuration then [WarnReason.lossCooldown] else []
     | none => []) ++
    (if maxPositionSizePercent < capitalAtRisk then []
     else if warningPositionSizePercent < capitalAtRisk then
       [WarnReason.positionSize]
     else []) ++
    (if maxTradesInWindow ≤
        (state.recentTrades.filter (fun t => now - t < rapidTradeWindow)).length then
       [WarnReason.rapidTrades]
     else [])
  let blocked : List BlockReason :=
    (if state.tradingPaused then [BlockReason.tradingPaused] else []) ++
    (if state.observeOnlyMode then [BlockReason.observeOnly] else []) ++
    (if maxPositionSizePercent < capitalAtRisk then [BlockReason.positionSize]
     else []) ++
    (if capExceeded state.dailyLimit state.dailySpent amount then
       [BlockReason.dailyLimit]
     else []) ++
    (if capExceeded state.weeklyLimit state.weeklySpent amount then
       [BlockReason.weeklyLimit]
     else [])
  { allowed := blocked.isEmpty,
    warnings := warnings,
    blocked := blocked,
    capitalAtRisk := capitalAtRisk,
    dailyRemaining := capRemaining state.dailyLimit state.dailySpent,
    weeklyRemaining := capRemaining state.weeklyLimit state.weeklySpent }

/-! ### Accuracy-weighted 24h volume (src/lib/metrics.js) -/

/-- The key used for the per-user maps: `p.user_id || 'anon'`. -/
def userKey (p : Prediction) : String :=
  match p.user_id with
  | some u => if u = "" then "anon" else u
  | none => "anon"

/-- A prediction counts as resolved when its status is `won` or `lost`. -/
def isResolved (p : Prediction) : Bool :=
  p.status == "won" || p.status == "lost"

/-- `computeUserAccuracyMap(predictions)`, modelled as a lookup: `none` when
the user placed no resolved prediction (no Map entry), otherwise the win
rate `wins / total`.  The source's `total > 0 ? wins / total : 0.5` ternary
is kept although every Map entry has `total ≥ 1`. -/
def computeUserAccuracy (predictions : List Prediction) (uid : String) :
    Option ℚ :=
  let resolved := predictions.filter (fun p => isResolved p)
  let mine := resolved.filter (fun p => userKey p == uid)
  if mine.length = 0 then none
  else
    let total : ℚ := mine.length
    let wins : ℚ := (mine.filter (fun p => p.status == "won")).length
    some (if 0 < total then wins / total else 1 / 2)

/-- The per-trade weight `0.5 + acc * 0.5` with `acc = userAcc.get(...) ?? 0.5`. -/
def accWeight (acc : Option ℚ) : ℚ :=
  1 / 2 + acc.getD (1 / 2) * (1 / 2)

/-- `sumStakesWeightedLast24h(predictions, marketId, userAcc)`: accuracy-
weighted stake volume over the trailing 24 hours.  `userAcc` is the accuracy
map and `now` is `Date.now()` in milliseconds. -/
def sumStakesWeightedLast24h (predictions : List Prediction) (marketId : String)
    (userAcc : String → Option ℚ) (now : ℚ) : ℚ :=
  let since := now - 24 * 60 * 60 * 1000
  predictions.foldl
    (fun sum p =>
      if p.market_id = marketId ∧ since ≤ p.created_at then
        sum + p.stake_amount * accWeight (userAcc (userKey p))
      else sum) 0

end Samsa

open Samsa

/-! ## Concrete data used by witnesses and counterexamples -/

/-- A single trade by a user with no resolved predictions, placed exactly at
the edge of the 24-hour window. -/
def unprovenTrade : Prediction :=
  { id := "p1", market_id := "m1", outcome_id := "o1", stake_amount := 100,
    odds_at_prediction := 60, potential_return := 0, status := "active",
    actual_return := 0, user_id := some "alice", created_at := 86400000 }

/-- A stored risk state with no caps, pauses or history. -/
def freshRiskState : RiskState :=
  { dailyLimit := none, weeklyLimit := none, dailySpent := 0, weeklySpent := 0,
    lastDailyReset := "d", lastWeeklyReset := "w", observeOnlyMode := false,
    tradingPaused := false, recentTrades := [], lastLossTime := none }

/-- The spec's scenario state: daily limit 50 with 40 already spent (a weekly
limit of 1000 is configured so both cap checks are live). -/
def cappedRiskState : RiskState :=
  { dailyLimit := some 50, weeklyLimit := some 1000, dailySpent := 40,
    weeklySpent := 40, lastDailyReset := "d", lastWeeklyReset := "w",
    observeOnlyMode := false, tradingPaused := false, recentTrades := [],
    lastLossTime := none }

/-- Two outcomes of a small demonstration market. -/
def demoOutcomes : List Outcome :=
  [{ id := "o1", total_stake := 50, probability := 50 },
   { id := "o2", total_stake := 50, probability := 50 }]

/-- An active two-outcome market. -/
def demoMarket : Market :=
  { id := "m1", status := "active", outcomes := demoOutcomes,
    total_volume := 100, winning_outcome_id := none, resolution_date := none }

/-- An active position on outcome `o2`, which loses when `o1` wins. -/
def losingPrediction : Prediction :=
  { id := "p1", market_id := "m1", outcome_id := "o2", stake_amount := 100,
    odds_at_prediction := 60, potential_return := 166.67, status := "active",
    actual_return := 0, user_id := some "u1", created_at := 0 }

/-- The demonstration market after a first resolution in favour of `o1`. -/
def resolvedMarket : Market :=
  { id := "m1", status := "resolved", outcomes := demoOutcomes,
    total_volume := 100, winning_outcome_id := some "o1",
    resolution_date := some 0 }

/-- A position already settled as won by the first resolution. -/
def wonPrediction : Prediction :=
  { id := "p1", market_id := "m1", outcome_id := "o1", stake_amount := 100,
    odds_at_prediction := 60, potential_return := 166.67, status := "won",
    actual_return := 166.67, user_id := some "u1", created_at := 0 }

/-! ## Claims about market resolution and trade placement -/

/-- Helper: adding `s` to the first outcome `find` locates raises the stake
sum by exactly `s`. -/
theorem sumUpdateFirstOutcome (l : List Outcome) (oid : String) (s : ℚ)
    (h : (l.find? (fun o => o.id == oid)).isSome = true) :
    ((updateFirstOutcome l oid s).map (fun o => o.total_stake)).sum =
      (l.map (fun o => o.total_stake)).sum + s := by
  induction l with
  | nil => simp at h
  | cons o rest ih =>
    by_cases ho : (o.id == oid) = true
    · unfold updateFirstOutcome
      rw [if_pos ho]
      simp
      ring
    · rw [Bool.not_eq_true] at ho
      unfold updateFirstOutcome
      rw [if_neg (by simp [ho])]
      rw [List.find?_cons, ho] at h
      simp only [List.map_cons, List.sum_cons, ih h]
      ring

/-- Helper: `recomputeMarketStats` rewrites probabilities and the volume but
leaves every outcome's `total_stake` unchanged. -/
theorem stakesRecompute (m : Market) :
    marketTotalStake (recomputeMarketStats m) = marketTotalStake m := by
  simp only [recomputeMarketStats, marketTotalStake]
  by_cases h : 0 < (m.outcomes.map (fun o => o.total_stake)).sum
  · rw [if_pos h, List.map_map]
    exact congrArg List.sum (List.map_congr_left (fun o _ => rfl))
  · rw [if_neg h]

/-- Helper: replacing the first market `find` locates changes the total stake
sum by the difference between the new and the old market. -/
theorem sumUpdateFirstMarket (l : List Market) (mid : String) (market m' : Market)
    (h : l.find? (fun m => m.id == mid) = some market) :
    ((updateFirstMarket l mid m').map marketTotalStake).sum =
      (l.map marketTotalStake).sum - marketTotalStake market +
        marketTotalStake m' := by
  induction l with
  | nil => simp at h
  | cons a rest ih =>
    by_cases ha : (a.id == mid) = true
    · rw [List.find?_cons, ha, Option.some.injEq] at h
      unfold updateFirstMarket
      rw [if_pos ha, ← h]
      simp
      ring
    · rw [Bool.not_eq_true] at ha
      rw [List.find?_cons, ha] at h
      unfold updateFirstMarket
      rw [if_neg (by simp [ha])]
      simp only [List.map_cons, List.sum_cons, ih h]
      ring

/-- C1 counterexample: resolving the demonstration market in favour of `o1`
settles the active position on `o2` as `lost` with `actual_return = 0`,
whereas the claim demands `actual_return = loss_refund = stake · p = 60`. -/
theorem losing_rebate_counterexample :
    ((resolveMarket [demoMarket] [losingPrediction] "m1" "o1" 0).toOption.map
      (fun r => r.predictions.map (fun p => (p.status, p.actual_return)))) =
      some [("lost", 0)] ∧
    LMSR.calcLoseReturn losingPrediction.stake_amount
      losingPrediction.odds_at_prediction = 60 ∧
    (0 : ℚ) ≠ 60 := by
  refine ⟨by decide, ?_, by norm_num⟩
  norm_num [LMSR.calcLoseReturn, LMSR.normProb, losingPrediction]

/-- C1 (amended): on a successful resolution, every position of the market
(whatever its previous status) is reclassified: winners get `status = won`
and `actual_return = potential_return`, losers get `status = lost` and
`actual_return = 0` (not the `loss_refund` rebate); consequently the
post-resolution `actual_return` of the market's losing positions sums to 0. -/
theorem resolution_settles_all_positions (markets : List Market)
    (preds : List Prediction) (mid wid : String) (now : ℚ) (r : ResolveResult)
    (h : resolveMarket markets preds mid wid now = Except.ok r) :
    r.predictions = preds.map (fun p =>
      if p.market_id = mid then
        { p with
          status := if p.outcome_id = wid then "won" else "lost",
          actual_return := if p.outcome_id = wid then p.potential_return else 0 }
      else p) ∧
    ((r.predictions.filter
        (fun p => p.market_id == mid && p.status == "lost")).map
      (fun p => p.actual_return)).sum = 0 := by
  unfold resolveMarket at h
  split at h
  · exact absurd h (by simp)
  rename_i market hf
  split at h
  · exact absurd h (by simp)
  rename_i o ho
  have hmid : market.id = mid := by
    have := List.find?_some hf
    simpa using this
  rw [Except.ok.injEq] at h
  have hpred : r.predictions = preds.map (settleOne mid wid) := by
    rw [← h, hmid]
  have hshape : r.predictions = preds.map (fun p =>
      if p.market_id = mid then
        { p with
          status := if p.outcome_id = wid then "won" else "lost",
          actual_return := if p.outcome_id = wid then p.potential_return else 0 }
      else p) := by
    rw [hpred]
    apply List.map_congr_left
    intro p _
    unfold settleOne
    by_cases hpm : p.market_id = mid
    · rw [if_neg (by simp [hpm]), if_pos hpm]
    · rw [if_pos hpm, if_neg hpm]
  refine ⟨hshape, ?_⟩
  apply List.sum_eq_zero
  intro x hx
  rw [List.mem_map] at hx
  obtain ⟨q, hq, hxq⟩ := hx
  rw [List.mem_filter] at hq
  obtain ⟨hql, hqf⟩ := hq
  rw [hshape, List.mem_map] at hql
  obtain ⟨p, _, hqp⟩ := hql
  by_cases hpm : p.market_id = mid
  · rw [if_pos hpm] at hqp
    by_cases hw : p.outcome_id = wid
    · rw [← hqp] at hqf
      simp [hw] at hqf
    · rw [← hxq, ← hqp]
      simp [hw]
  · rw [if_neg hpm] at hqp
    rw [← hqp] at hqf
    simp [hpm] at hqf

/-- Witness for C1 (amended) at the demonstration market. -/
theorem resolution_settles_all_positions_witness :
    ∃ r, resolveMarket [demoMarket] [losingPrediction] "m1" "o1" 0 =
        Except.ok r ∧
      (r.predictions = [losingPrediction].map (fun p =>
        if p.market_id = "m1" then
          { p with
            status := if p.outcome_id = "o1" then "won" else "lost",
            actual_return := if p.outcome_id = "o1" then p.potential_return else 0 }
        else p) ∧
      ((r.predictions.filter
          (fun p => p.market_id == "m1" && p.status == "lost")).map
        (fun p => p.actual_return)).sum = 0) := by
  cases hres : resolveMarket [demoMarket] [losingPrediction] "m1" "o1" 0 with
  | error e =>
    have hok : (resolveMarket [demoMarket] [losingPrediction]
        "m1" "o1" 0).toOption.isSome = true := by decide
    rw [hres] at hok
    simp [Except.toOption] at hok
  | ok r =>
    exact ⟨r, rfl,
      resolution_settles_all_positions [demoMarket] [losingPrediction]
        "m1" "o1" 0 r hres⟩

/-- C2 counterexample: the demonstration market is already `resolved`, yet a
second resolution (now in favour of `o2`) succeeds — no
`MarketAlreadyResolved` error — and mutates the settled position from
`won` / 166.67 to `lost` / 0. -/
theorem second_resolution_counterexample :
    resolvedMarket.status = "resolved" ∧
    ((resolveMarket [resolvedMarket] [wonPrediction] "m1" "o2" 1).toOption.map
      (fun r => r.predictions.map (fun p => (p.status, p.actual_return)))) =
      some [("lost", 0)] ∧
    wonPrediction.status = "won" ∧ wonPrediction.actual_return = 166.67 := by
  refine ⟨rfl, by decide, rfl, by norm_num [wonPrediction]⟩

/-- C2 (amended): resolution succeeds whenever the market exists and the
supplied winning outcome belongs to it — the market's status is never
inspected, so a second resolution of an already-resolved market succeeds and
re-settles every one of its positions. -/
theorem resolution_ignores_status (markets : List Market)
    (preds : List Prediction) (mid wid : String) (now : ℚ) (market : Market)
    (h1 : markets.find? (fun m => m.id == mid) = some market)
    (h2 : (market.outcomes.find? (fun o => o.id == wid)).isSome = true) :
    ∃ r, resolveMarket markets preds mid wid now = Except.ok r ∧
      r.predictions = preds.map (settleOne market.id wid) := by
  obtain ⟨o, ho⟩ := Option.isSome_iff_exists.mp h2
  unfold resolveMarket
  rw [h1]
  dsimp only
  rw [ho]
  exact ⟨_, rfl, rfl⟩

/-- Witness for C2 (amended): the second resolution of the already-resolved
demonstration market succeeds. -/
theorem resolution_ignores_status_witness :
    resolvedMarket.status = "resolved" ∧
    ∃ r, resolveMarket [resolvedMarket] [wonPrediction] "m1" "o2" 1 =
        Except.ok r ∧
      r.predictions = [wonPrediction].map (settleOne resolvedMarket.id "o2") :=
  ⟨rfl, resolution_ignores_status [resolvedMarket] [wonPrediction] "m1" "o2" 1
    resolvedMarket (by decide) (by decide)⟩

/-- C3 counterexample: a stake of −5 on the active demonstration market is
accepted — the handler checks only that the stake is a number — creating a
position with `stake_amount = -5` and dropping outcome `o1`'s `total_stake`
from 50 to 45, so state is mutated rather than the request being rejected
with an invalid-stake error. -/
theorem negative_stake_counterexample :
    ((createPrediction [demoMarket] [] "m1" "o1" (some (-5)) (some 60)
        (some "u1") "p2" 0).toOption.map
      (fun r => (r.created.stake_amount, r.created.status,
        r.markets.map (fun m => m.outcomes.map (fun o => o.total_stake)),
        r.predictions.length))) =
      some (-5, "active", [[45, 50]], 1) ∧
    (45 : ℚ) ≠ 50 := by
  refine ⟨?_, by norm_num⟩
  norm_num [createPrediction, demoMarket, demoOutcomes, updateFirstOutcome,
    updateFirstMarket, recomputeMarketStats, marketTotalStake, List.find?]
  rw [if_neg (by simp)]
  exact ⟨_, rfl, rfl, rfl, by simp, rfl⟩

/-- C3 (amended): any numeric stake `s`, including `s ≤ 0`, passes
validation against an active market and a valid outcome: the request
succeeds, a Position with `stake_amount = s` and status `active` is appended,
and the outcome's stake total (hence the aggregate stake over all markets)
changes by `s`; there is no invalid-stake rejection. -/
theorem nonpositive_stake_accepted (markets : List Market)
    (predictions : List Prediction) (market_id outcome_id : String)
    (s odds : ℚ) (user_id : Option String) (newId : String) (now : ℚ)
    (market : Market)
    (hm : market_id ≠ "") (ho : outcome_id ≠ "")
    (h1 : markets.find? (fun m => m.id == market_id) = some market)
    (h2 : market.status = "active")
    (h3 : (market.outcomes.find? (fun o => o.id == outcome_id)).isSome = true)
    (hs : s ≤ 0) :
    ∃ r, createPrediction markets predictions market_id outcome_id (some s)
        (some odds) user_id newId now = Except.ok r ∧
      r.created.stake_amount = s ∧
      r.created.status = "active" ∧
      r.predictions = predictions ++ [r.created] ∧
      (r.markets.map marketTotalStake).sum =
        (markets.map marketTotalStake).sum + s := by
  obtain ⟨o, ho3⟩ := Option.isSome_iff_exists.mp h3
  unfold createPrediction
  dsimp only
  rw [if_neg (by simp [hm, ho])]
  rw [h1]
  dsimp only
  rw [if_neg (by simp [h2])]
  rw [ho3]
  dsimp only
  refine ⟨_, rfl, rfl, rfl, rfl, ?_⟩
  rw [sumUpdateFirstMarket markets market_id market _ h1]
  rw [stakesRecompute]
  have hup : marketTotalStake
      { market with outcomes := updateFirstOutcome market.outcomes outcome_id s } =
      marketTotalStake market + s := by
    unfold marketTotalStake
    exact sumUpdateFirstOutcome market.outcomes outcome_id s h3
  rw [hup]
  ring

/-- Witness for C3 (amended) at stake −5 on the demonstration market. -/
theorem nonpositive_stake_accepted_witness :
    ∃ r, createPrediction [demoMarket] [] "m1" "o1" (some (-5)) (some 60)
        (some "u1") "p2" 0 = Except.ok r ∧
      r.created.stake_amount = -5 ∧
      r.created.status = "active" ∧
      r.predictions = [] ++ [r.created] ∧
      (r.markets.map marketTotalStake).sum =
        ([demoMarket].map marketTotalStake).sum + (-5) :=
  nonpositive_stake_accepted [demoMarket] [] "m1" "o1" (-5) 60 (some "u1")
    "p2" 0 demoMarket (by decide) (by decide) (by decide) rfl (by decide)
    (by norm_num)

/-! ## Claims about the settlement calculations -/

/-- C4: for every stake S ≥ 0, probability p ∈ [0,1] and fee f ∈ [0,1],
`loss_refund(S,p) = S - loss_amount(S,p)` and
`win_return(S,p,f) = S + win_profit(S,p,f)` hold exactly. -/
theorem refund_and_return_identities (S p f : ℚ)
    (hS : 0 ≤ S) (hp0 : 0 ≤ p) (hp1 : p ≤ 1) (hf0 : 0 ≤ f) (hf1 : f ≤ 1) :
    LMSR.calcLoseReturn S p = S - LMSR.calcLossAmount S p ∧
    LMSR.calcWinReturn S p f = S + LMSR.calcWinProfit S p f := by
  constructor
  · unfold LMSR.calcLoseReturn LMSR.calcLossAmount
    ring
  · rfl

/-- Witness for C4 at the spec's worked scenario S = 100, p = 0.6, f = 1%. -/
theorem refund_and_return_identities_witness :
    LMSR.calcLoseReturn 100 (3/5) = 100 - LMSR.calcLossAmount 100 (3/5) ∧
    LMSR.calcWinReturn 100 (3/5) (1/100) =
      100 + LMSR.calcWinProfit 100 (3/5) (1/100) :=
  refund_and_return_identities 100 (3/5) (1/100) (by norm_num) (by norm_num)
    (by norm_num) (by norm_num) (by norm_num)

/-- C5: for every stake S ≥ 0, probability p ∈ [0,1] and fee f ∈ [0,1], the
lose branch of `settleTrade` yields platform revenue 0, and the win branch
yields S·(1-p)·f, which is at most S·(1-p). -/
theorem platform_revenue_win_only (S p f : ℚ)
    (hS : 0 ≤ S) (hp0 : 0 ≤ p) (hp1 : p ≤ 1) (hf0 : 0 ≤ f) (hf1 : f ≤ 1) :
    (LMSR.settleTrade S p false f).platformRevenue = 0 ∧
    (LMSR.settleTrade S p true f).platformRevenue = S * (1 - p) * f ∧
    (LMSR.settleTrade S p true f).platformRevenue ≤ S * (1 - p) := by
  have hnp : LMSR.normProb p = p := by
    unfold LMSR.normProb
    exact if_neg (not_lt.mpr hp1)
  have hrev : (LMSR.settleTrade S p true f).platformRevenue = S * (1 - p) * f := by
    simp [LMSR.settleTrade, hnp]
  refine ⟨rfl, hrev, ?_⟩
  rw [hrev]
  have h1 : 0 ≤ S * (1 - p) := mul_nonneg hS (by linarith)
  calc S * (1 - p) * f ≤ S * (1 - p) * 1 := mul_le_mul_of_nonneg_left hf1 h1
    _ = S * (1 - p) := mul_one _

/-- Witness for C5 at S = 100, p = 0.6, f = 1%. -/
theorem platform_revenue_win_only_witness :
    (LMSR.settleTrade 100 (3/5) false (1/100)).platformRevenue = 0 ∧
    (LMSR.settleTrade 100 (3/5) true (1/100)).platformRevenue =
      100 * (1 - 3/5) * (1/100) ∧
    (LMSR.settleTrade 100 (3/5) true (1/100)).platformRevenue ≤
      100 * (1 - 3/5) :=
  platform_revenue_win_only 100 (3/5) (1/100) (by norm_num) (by norm_num)
    (by norm_num) (by norm_num) (by norm_num)

/-! ## Claims about the probability model -/

/-- C6: whatever the market state (any accumulators, any liquidity), the side
and the stake, the probability `invest` returns lies in [0.05, 0.95]. -/
theorem invest_return_clamped (m : LMSRMarket) (side : String) (stake : ℝ) :
    0.05 ≤ (m.invest side stake).2 ∧ (m.invest side stake).2 ≤ 0.95 :=
  ⟨le_max_left _ _, max_le (by norm_num) (min_le_left _ _)⟩

/-- C10: the [0.05, 0.95] clamp applies only to `invest`'s return value:
`getState` reports the raw softmax probability, a single large stake updates
the accumulator unclamped (to 5000 here), and the subsequent `getProbability`
exceeds 0.95 even though the value `invest` returned was clamped to 0.95. -/
theorem raw_probability_unclamped :
    (∀ m : LMSRMarket, (LMSRMarket.getState m).probability =
      LMSRMarket.getProbability m) ∧
    ((LMSRMarket.mk 0 0 100).invest "YES" 10000).1.qYes = 5000 ∧
    0.95 < LMSRMarket.getProbability ((LMSRMarket.mk 0 0 100).invest "YES" 10000).1 ∧
    ((LMSRMarket.mk 0 0 100).invest "YES" 10000).2 ≤ 0.95 := by
  have hp : LMSRMarket.getProbability (LMSRMarket.mk 0 0 100) = 1/2 := by
    unfold LMSRMarket.getProbability
    norm_num
  have hm : ((LMSRMarket.mk 0 0 100).invest "YES" 10000).1 =
      LMSRMarket.mk 5000 0 100 := by
    simp [LMSRMarket.invest, hp]
    norm_num
  have hexp : (19:ℝ) < Real.exp 50 := by
    have := Real.add_one_le_exp (50:ℝ)
    linarith
  refine ⟨fun m => rfl, ?_, ?_, ?_⟩
  · rw [hm]
  · rw [hm]
    unfold LMSRMarket.getProbability
    have h100 : (5000:ℝ)/100 = 50 := by norm_num
    have h0 : (0:ℝ)/100 = 0 := by norm_num
    simp only [h100, h0, Real.exp_zero]
    rw [lt_div_iff₀ (by positivity)]
    linarith
  · exact max_le (by norm_num) (min_le_left _ _)

/-! ## Claims about the risk controls -/

/-- C7: whenever the capital at risk `stake / balance * 100` exceeds 10%, the
evaluation blocks the trade with a position-size violation (never merely a
warning); in (5%, 10%] it produces the position-size warning only. -/
theorem position_size_rules (stored : RiskState) (today weekStart : String)
    (balance now amount : ℚ) (hb : 0 < balance) :
    (10 < amount / balance * 100 →
      BlockReason.positionSize ∈
        (validateTradeRisk stored today weekStart balance now amount).blocked ∧
      WarnReason.positionSize ∉
        (validateTradeRisk stored today weekStart balance now amount).warnings ∧
      (validateTradeRisk stored today weekStart balance now amount).allowed = false) ∧
    (5 < amount / balance * 100 → amount / balance * 100 ≤ 10 →
      WarnReason.positionSize ∈
        (validateTradeRisk stored today weekStart balance now amount).warnings ∧
      BlockReason.positionSize ∉
        (validateTradeRisk stored today weekStart balance now amount).blocked) := by
  have hcar : calculateCapitalAtRisk amount balance = amount / balance * 100 := by
    unfold calculateCapitalAtRisk
    exact if_neg (not_le.mpr hb)
  constructor
  · intro h
    refine ⟨?_, ?_, ?_⟩
    · simp [validateTradeRisk, hcar, maxPositionSizePercent, h]
    · cases hl : (checkAndResetLimits stored today weekStart).lastLossTime <;>
        simp [validateTradeRisk, hcar, hl, maxPositionSizePercent,
          warningPositionSizePercent, h]
    · simp [validateTradeRisk, hcar, maxPositionSizePercent, h, List.isEmpty_iff]
  · intro h5 h10
    constructor
    · cases hl : (checkAndResetLimits stored today weekStart).lastLossTime <;>
        simp [validateTradeRisk, hcar, hl, maxPositionSizePercent,
          warningPositionSizePercent, h5, not_lt.mpr h10]
    · simp [validateTradeRisk, hcar, maxPositionSizePercent, not_lt.mpr h10]

/-- Witness for C7: with balance 100, a stake of 20 (20% of capital) is
blocked for position size, the violation is not a mere warning, and the trade
is not allowed. -/
theorem position_size_rules_witness :
    BlockReason.positionSize ∈
      (validateTradeRisk freshRiskState "d" "w" 100 0 20).blocked ∧
    WarnReason.positionSize ∉
      (validateTradeRisk freshRiskState "d" "w" 100 0 20).warnings ∧
    (validateTradeRisk freshRiskState "d" "w" 100 0 20).allowed = false :=
  (position_size_rules freshRiskState "d" "w" 100 0 20 (by norm_num)).1
    (by norm_num)

/-- C8: with a configured daily cap L, a trade of `amount` carries a
daily-limit block exactly when `dailySpent + amount > L` (and analogously the
weekly cap); when nothing else blocks, the trade is allowed exactly when both
caps are respected. -/
theorem spend_cap_blocking (stored : RiskState) (today weekStart : String)
    (balance now amount L W : ℚ)
    (hd : stored.lastDailyReset = today) (hw : stored.lastWeeklyReset = weekStart)
    (hL : stored.dailyLimit = some L) (hL0 : L ≠ 0)
    (hW : stored.weeklyLimit = some W) (hW0 : W ≠ 0) :
    (BlockReason.dailyLimit ∈
        (validateTradeRisk stored today weekStart balance now amount).blocked ↔
      L < stored.dailySpent + amount) ∧
    (BlockReason.weeklyLimit ∈
        (validateTradeRisk stored today weekStart balance now amount).blocked ↔
      W < stored.weeklySpent + amount) ∧
    (stored.tradingPaused = false → stored.observeOnlyMode = false →
      calculateCapitalAtRisk amount balance ≤ maxPositionSizePercent →
      ((validateTradeRisk stored today weekStart balance now amount).allowed = true ↔
        (stored.dailySpent + amount ≤ L ∧ stored.weeklySpent + amount ≤ W))) := by
  have hreset : checkAndResetLimits stored today weekStart = stored := by
    unfold checkAndResetLimits
    simp [hd, hw]
  refine ⟨?_, ?_, ?_⟩
  · simp [validateTradeRisk, hreset, hL, hW, capExceeded, hL0, hW0]
  · simp [validateTradeRisk, hreset, hL, hW, capExceeded, hL0, hW0]
  · intro hp ho hcap
    simp [validateTradeRisk, hreset, hL, hW, capExceeded, hL0, hW0, hp, ho,
      not_lt.mpr hcap, List.isEmpty_iff, not_lt]

/-- Witness for C8 at the spec's scenario: with daily limit 50 and 40 spent,
a 20-dollar trade is blocked on the daily cap and a 10-dollar trade is
allowed. -/
theorem spend_cap_blocking_witness :
    BlockReason.dailyLimit ∈
      (validateTradeRisk cappedRiskState "d" "w" 10000 0 20).blocked ∧
    (validateTradeRisk cappedRiskState "d" "w" 10000 0 10).allowed = true := by
  constructor
  · exact (spend_cap_blocking cappedRiskState "d" "w" 10000 0 20 50 1000 rfl rfl
      rfl (by norm_num) rfl (by norm_num)).1.mpr
      (by norm_num [cappedRiskState])
  · exact ((spend_cap_blocking cappedRiskState "d" "w" 10000 0 10 50 1000 rfl rfl
      rfl (by norm_num) rfl (by norm_num)).2.2 rfl rfl
        (by norm_num [calculateCapitalAtRisk, maxPositionSizePercent])).mpr
      (by norm_num [cappedRiskState])

/-! ## Claims about the informed-volume weighting -/

/-- C9 counterexample: the user `alice` has no resolved predictions, so she
has no accuracy entry; her trade of stake 100 contributes 75 to the weighted
24h volume (weight 0.75, since the missing accuracy defaults to 0.5), not the
half weight 50 = 100 · 0.5 the claim states. -/
theorem unproven_half_weight_counterexample :
    computeUserAccuracy [unprovenTrade] "alice" = none ∧
    sumStakesWeightedLast24h [unprovenTrade] "m1"
      (computeUserAccuracy [unprovenTrade]) 86400000 = 75 ∧
    (75 : ℚ) ≠ 100 * (1/2) := by
  have hacc : computeUserAccuracy [unprovenTrade] "alice" = none := by decide
  refine ⟨hacc, ?_, by norm_num⟩
  simp only [sumStakesWeightedLast24h, List.foldl_cons, List.foldl_nil]
  rw [if_pos ⟨rfl, by norm_num [unprovenTrade]⟩]
  have hkey : userKey unprovenTrade = "alice" := by decide
  rw [hkey, hacc]
  norm_num [unprovenTrade, accWeight]

/-- C9 (amended): each in-window trade's stake is weighted by
0.5 + accuracy·0.5, where accuracy is the placing user's win rate over
resolved predictions; a user with no resolved predictions has no accuracy
entry and the weight defaults to 0.75 (accuracy defaulting to 0.5), while a
perfectly accurate user's trade counts at full weight 1. -/
theorem accuracy_weighting (preds : List Prediction) (uid : String) :
    ((∀ p ∈ preds, userKey p = uid → isResolved p = false) →
      computeUserAccuracy preds uid = none ∧
      accWeight (computeUserAccuracy preds uid) = 3/4) ∧
    ((∀ p ∈ preds, userKey p = uid → isResolved p = true → p.status = "won") →
      (∃ p ∈ preds, userKey p = uid ∧ isResolved p = true) →
      computeUserAccuracy preds uid = some 1 ∧
      accWeight (computeUserAccuracy preds uid) = 1) ∧
    (∀ p : Prediction, ∀ ua : String → Option ℚ, ∀ mid : String, ∀ now : ℚ,
      p.market_id = mid → now - 24 * 60 * 60 * 1000 ≤ p.created_at →
      sumStakesWeightedLast24h [p] mid ua now =
        p.stake_amount * accWeight (ua (userKey p))) := by
  refine ⟨?_, ?_, ?_⟩
  · intro h
    have hmine : ((preds.filter (fun p => isResolved p)).filter
        (fun p => userKey p == uid)) = [] := by
      rw [List.filter_eq_nil_iff]
      intro p hp
      rw [List.mem_filter] at hp
      simp only [beq_iff_eq]
      intro hk
      have := h p hp.1 hk
      rw [this] at hp
      exact absurd hp.2 (by simp)
    have hnone : computeUserAccuracy preds uid = none := by
      simp only [computeUserAccuracy, hmine]
      simp
    refine ⟨hnone, ?_⟩
    rw [hnone]
    norm_num [accWeight]
  · intro hall hex
    obtain ⟨p, hp, hk, hr⟩ := hex
    have hpmine : p ∈ ((preds.filter (fun q => isResolved q)).filter
        (fun q => userKey q == uid)) := by
      rw [List.mem_filter, List.mem_filter]
      exact ⟨⟨hp, hr⟩, by simp [hk]⟩
    have hlen : ((preds.filter (fun q => isResolved q)).filter
        (fun q => userKey q == uid)).length ≠ 0 := by
      intro h0
      rw [List.length_eq_zero] at h0
      rw [h0] at hpmine
      exact absurd hpmine (List.not_mem_nil p)
    have hwon : ((preds.filter (fun q => isResolved q)).filter
        (fun q => userKey q == uid)).filter (fun q => q.status == "won") =
        (preds.filter (fun q => isResolved q)).filter (fun q => userKey q == uid) := by
      rw [List.filter_eq_self]
      intro q hq
      rw [List.mem_filter, List.mem_filter] at hq
      have := hall q hq.1.1 (by simpa using hq.2) hq.1.2
      simp [this]
    have hsome : computeUserAccuracy preds uid = some 1 := by
      simp only [computeUserAccuracy]
      rw [if_neg hlen, hwon]
      have hpos : 0 < (((preds.filter (fun q => isResolved q)).filter
          (fun q => userKey q == uid)).length : ℚ) := by
        exact_mod_cast Nat.pos_of_ne_zero hlen
      rw [if_pos hpos]
      rw [div_self (ne_of_gt hpos)]
    refine ⟨hsome, ?_⟩
    rw [hsome]
    norm_num [accWeight]
  · intro p ua mid now h1 h2
    simp only [sumStakesWeightedLast24h, List.foldl_cons, List.foldl_nil]
    rw [if_pos ⟨h1, h2⟩, zero_add]
